import Mathlib

/-!
# Idempotency coordinator over a DynamoDB table

A shallow embedding of `src/src/idempotency/idempotency.go`.

* Go error values are a small inductive type with the `Error()` text and the
  `errors.Is` / `errors.As` tests the package performs.
* The DynamoDB table is a map from partition key to item.  Every SDK call is
  served in one atomic step.  What the rest of the world does around a call is
  given by a `Turn`: writes of other clients that land just before the call is
  served, and an optional failure of the call itself (a failed call leaves the
  table as it was).
* `time.Now().Unix()` is a field of the environment.  It is a count of seconds
  since 1970, far from the `int64` bounds, so `nowTTL + 360` is exact and the
  model uses `Int` without wrap-around.
* `fmt.Println` lines are diagnostics and are left out.
-/

namespace Idempotency

/-! ## Errors -/

/-- Go error values as this package can tell them apart. -/
inductive GoError where
  /-- The single value of a package-level `errors.New(text)` variable. -/
  | sentinel (text : String)
  /-- The value of `fmt.Errorf("<text>: %w", cause)`. -/
  | wrapped (text : String) (cause : GoError)
  /-- The SDK error carrying `*dynamodbtypes.ConditionalCheckFailedException`. -/
  | conditionalCheckFailed (text : String)
  /-- Any other error value: transport, encoding, configuration, callback. -/
  | other (text : String)
deriving DecidableEq, Repr

/-- Method `Error()`. -/
def GoError.Error : GoError → String
  | .sentinel text => text
  | .wrapped text cause => text ++ ": " ++ cause.Error
  | .conditionalCheckFailed text => text
  | .other text => text

/-- Function `errors.Is(err, target)`: walk the `%w` chain of `err`. -/
def errorsIs : GoError → GoError → Bool
  | .wrapped text cause, target =>
    decide (GoError.wrapped text cause = target) || errorsIs cause target
  | .sentinel text, target => decide (GoError.sentinel text = target)
  | .conditionalCheckFailed text, target => decide (GoError.conditionalCheckFailed text = target)
  | .other text, target => decide (GoError.other text = target)

/-- Test `errors.As(err, &conditionFailedErr)` with
`conditionFailedErr *dynamodbtypes.ConditionalCheckFailedException`. -/
def errorsAsConditionFailed : GoError → Bool
  | .conditionalCheckFailed _ => true
  | .wrapped _ cause => errorsAsConditionFailed cause
  | _ => false

/-- Line 30: `var ErrPersistanceLayer = errors.New("persistance layer error")`. -/
def ErrPersistanceLayer : GoError := .sentinel "persistance layer error"

/-- Line 144: `var errItemNotFound = errors.New("Item not found")`. -/
def errItemNotFound : GoError := .sentinel "Item not found"

/-- The value of `fmt.Errorf("%s: %w", err.Error(), ErrPersistanceLayer)`. -/
def wrapPersistance (err : GoError) : GoError := .wrapped err.Error ErrPersistanceLayer

/-! ## Data model -/

/-- The zero value `var zero R` of a Go type. -/
class GoZero (R : Type) where
  /-- The zero value. -/
  zero : R

instance : GoZero String := ⟨""⟩

instance : GoZero Int := ⟨0⟩

instance : GoZero Bool := ⟨false⟩

/-- Lines 21-28: `Item[R]`, with the embedded `Key` flattened to its field `PK`. -/
structure Item (R : Type) where
  /-- Partition key. -/
  PK : String
  /-- Expiry, epoch seconds. -/
  TTL : Int
  /-- Status text, `"IN_PROGRESS"` or `"COMPLETED"` when written by this package. -/
  Status : String
  /-- Result of the callback; the zero value until the update. -/
  Result : R
deriving DecidableEq, Repr

/-- The zero value `Item[R]{}`. -/
def Item.zero (R : Type) [GoZero R] : Item R :=
  { PK := "", TTL := 0, Status := "", Result := GoZero.zero }

/-- Line 32: `type Callback[R comparable] func() (R, error)`.  One call of the
coordinator invokes it at most once, so it is given by what that invocation
returns: a result and an error (`none` for `nil`). -/
abbrev Callback (R : Type) := Unit → R × Option GoError

/-- The table: at most one item per partition key. -/
abbrev Table (R : Type) := String → Option (Item R)

/-- The empty table. -/
def Table.empty (R : Type) : Table R := fun _ => none

/-- The table with `item` stored under `key`. -/
def Table.set {R : Type} (t : Table R) (key : String) (item : Item R) : Table R :=
  fun k => if k = key then some item else t k

/-- The table with `item` stored under its own key. -/
def Table.insert {R : Type} (t : Table R) (item : Item R) : Table R :=
  t.set item.PK item

/-- The table without a record for `key`. -/
def Table.erase {R : Type} (t : Table R) (key : String) : Table R :=
  fun k => if k = key then none else t k

/-- What the package did, in order: SDK calls it issued and callback invocations. -/
inductive Call where
  | putItem (key : String)
  | getItem (key : String)
  | updateItem (key : String)
  | deleteItem (key : String)
  | callback
deriving DecidableEq, Repr

/-- What the rest of the world does around one SDK call. -/
structure Turn (R : Type) where
  /-- Writes of other clients that land before the call is served. -/
  others : Table R → Table R
  /-- Text of the failure (encoding or transport) when the call fails. -/
  fault : Option String

/-- The turn in which nobody else writes and the call goes through. -/
def Turn.calm (R : Type) : Turn R := { others := id, fault := none }

/-- Everything outside the package that one call of `Idempotent` depends on. -/
structure Env (R : Type) where
  /-- Value of `time.Now().Unix()` read by `saveInProgress`. -/
  now : Int
  /-- Outcome of `config.LoadDefaultConfig(ctx)`. -/
  loadConfig : Option GoError
  /-- Outcome of building the condition expression (line 80). -/
  buildCondition : Option GoError
  /-- Turn of the `PutItem` call of `saveInProgress`. -/
  putTurn : Turn R
  /-- Turn of the `GetItem` call of `get`. -/
  getTurn : Turn R
  /-- Turn of the `DeleteItem` call issued by `saveInProgress` (line 128). -/
  reclaimTurn : Turn R
  /-- Turn of the `DeleteItem` call issued by `Idempotent` (line 59). -/
  cleanupTurn : Turn R
  /-- Turn of the `UpdateItem` call of `update`. -/
  updateTurn : Turn R

/-- The environment at clock value `now` in which the configuration loads,
nobody else writes and every call goes through. -/
def Env.calm (R : Type) (now : Int) : Env R :=
  { now := now, loadConfig := none, buildCondition := none,
    putTurn := Turn.calm R, getTurn := Turn.calm R, reclaimTurn := Turn.calm R,
    cleanupTurn := Turn.calm R, updateTurn := Turn.calm R }

/-- The observable world: the table, the calls made so far, and the table as it
stood at the moment the callback was invoked (`none` while it has not been). -/
structure World (R : Type) where
  /-- Current content of the table. -/
  table : Table R
  /-- Calls made so far, oldest first. -/
  calls : List Call
  /-- Snapshot of the table taken when the callback was invoked. -/
  atCallback : Option (Table R)

/-- A world with the given table and nothing done yet. -/
def World.start {R : Type} (t : Table R) : World R :=
  { table := t, calls := [], atCallback := none }

/-! ## The DynamoDB calls -/

/-- Call `client.PutItem` with condition `attribute_not_exists(PK)`. -/
def putItem {R : Type} (turn : Turn R) (item : Item R) (w : World R) :
    Option GoError × World R :=
  let t := turn.others w.table
  let log := w.calls ++ [Call.putItem item.PK]
  match turn.fault with
  | some text => (some (.other text), { w with table := t, calls := log })
  | none =>
    match t item.PK with
    | some _ =>
      (some (.conditionalCheckFailed "The conditional request failed"),
        { w with table := t, calls := log })
    | none => (none, { w with table := t.insert item, calls := log })

/-- Call `client.GetItem` with `ConsistentRead`; the second component is `out.Item`. -/
def getItem {R : Type} (turn : Turn R) (key : String) (w : World R) :
    (Option GoError × Option (Item R)) × World R :=
  let t := turn.others w.table
  let log := w.calls ++ [Call.getItem key]
  match turn.fault with
  | some text => ((some (.other text), none), { w with table := t, calls := log })
  | none => ((none, t key), { w with table := t, calls := log })

/-- Call `client.UpdateItem` with `SET result = :r, status = "COMPLETED"` and no
condition.  DynamoDB edits the item when it exists and adds a new item holding
the key and the two attributes when it does not; the new item has no TTL
attribute, which reads back as 0. -/
def updateItem {R : Type} (turn : Turn R) (key : String) (result : R) (w : World R) :
    Option GoError × World R :=
  let t := turn.others w.table
  let log := w.calls ++ [Call.updateItem key]
  match turn.fault with
  | some text => (some (.other text), { w with table := t, calls := log })
  | none =>
    match t key with
    | some old =>
      (none, { w with table := t.set key { old with Status := "COMPLETED", Result := result },
                      calls := log })
    | none =>
      (none, { w with table := t.set key { PK := key, TTL := 0, Status := "COMPLETED",
                                           Result := result },
                      calls := log })

/-- Call `client.DeleteItem`; deleting an absent key succeeds. -/
def deleteItem {R : Type} (turn : Turn R) (key : String) (w : World R) :
    Option GoError × World R :=
  let t := turn.others w.table
  let log := w.calls ++ [Call.deleteItem key]
  match turn.fault with
  | some text => (some (.other text), { w with table := t, calls := log })
  | none => (none, { w with table := t.erase key, calls := log })

/-! ## The package functions -/

/-- Lines 146-177: `get`. -/
def get {R : Type} [GoZero R] (turn : Turn R) (key : String) (w : World R) :
    (Item R × Option GoError) × World R :=
  match getItem turn key w with
  | ((some err, _), w1) => ((Item.zero R, some (wrapPersistance err)), w1)
  | ((none, none), w1) => ((Item.zero R, some errItemNotFound), w1)
  | ((none, some idempotencyItem), w1) => ((idempotencyItem, none), w1)

/-- Lines 179-211: `update`. -/
def update {R : Type} (turn : Turn R) (result : R) (key : String) (w : World R) :
    Option GoError × World R :=
  match updateItem turn key result w with
  | (some err, w1) => (some (wrapPersistance err), w1)
  | (none, w1) => (none, w1)

/-- Lines 213-232: `delete`. -/
def delete {R : Type} (turn : Turn R) (key : String) (w : World R) :
    Option GoError × World R :=
  match deleteItem turn key w with
  | (some err, w1) => (some (wrapPersistance err), w1)
  | (none, w1) => (none, w1)

/-- Lines 76-142: `saveInProgress`. -/
def saveInProgress {R : Type} [GoZero R] (env : Env R) (key : String) (w : World R) :
    (Item R × Option GoError) × World R :=
  let nowTTL := env.now
  match env.buildCondition with
  | some _ => ((Item.zero R, some ErrPersistanceLayer), w)
  | none =>
    let item : Item R :=
      { PK := key, Status := "IN_PROGRESS", TTL := nowTTL + 360, Result := GoZero.zero }
    match putItem env.putTurn item w with
    | (none, w1) => ((item, none), w1)
    | (some err, w1) =>
      if errorsAsConditionFailed err then
        match get env.getTurn key w1 with
        | ((_, some getErr), w2) => ((Item.zero R, some (wrapPersistance getErr)), w2)
        | ((got, none), w2) =>
          if got.Status = "IN_PROGRESS" then
            ((Item.zero R, some (.wrapped "in progress!" ErrPersistanceLayer)), w2)
          else if got.TTL < nowTTL then
            -- the error of this delete is only printed
            ((item, none), (delete env.reclaimTurn key w2).2)
          else
            ((got, none), w2)
      else
        ((Item.zero R, some (wrapPersistance err)), w1)

/-- The callback is invoked: it is logged and the table is photographed. -/
def World.invoke {R : Type} (w : World R) : World R :=
  { w with calls := w.calls ++ [Call.callback], atCallback := some w.table }

/-- Lines 34-74: `Idempotent`. -/
def Idempotent {R : Type} [GoZero R] [DecidableEq R] (env : Env R) (key : String)
    (callback : Callback R) (w : World R) : (R × Option GoError) × World R :=
  match env.loadConfig with
  | some err => ((GoZero.zero, some err), w)
  | none =>
    match saveInProgress env key w with
    | ((_, some err), w1) => ((GoZero.zero, some err), w1)
    | ((item, none), w1) =>
      if item.Result ≠ GoZero.zero then
        ((item.Result, none), w1)
      else
        let w2 := w1.invoke
        match callback () with
        | (_, some err) =>
          match delete env.cleanupTurn key w2 with
          | (some delErr, w3) => ((GoZero.zero, some delErr), w3)
          | (none, w3) => ((GoZero.zero, some err), w3)
        | (result, none) =>
          match update env.updateTurn result key w2 with
          | (some err, w3) => ((GoZero.zero, some err), w3)
          | (none, w3) => ((result, none), w3)

/-! ## Small-step form, for concurrent callers

One caller is a control state; one step is one atomic action: an SDK call
together with the local computation up to the next action, or the callback
invocation.  Several callers share one world and a schedule says whose step is
next. -/

/-- The error of line 123: `fmt.Errorf("in progress!: %w", ErrPersistanceLayer)`. -/
def inProgressError : GoError := .wrapped "in progress!" ErrPersistanceLayer

/-- Where one call of `Idempotent` stands. -/
inductive Pc (R : Type) where
  /-- Entered; `PutItem` is next. -/
  | start
  /-- The put failed its condition; `GetItem` is next. -/
  | conflict
  /-- An expired record was read; `DeleteItem` of line 128 is next. -/
  | reclaim
  /-- The test of line 50 failed; the callback is next. -/
  | ready
  /-- The callback failed with `err`; `DeleteItem` of line 59 is next. -/
  | cleanup (err : GoError)
  /-- The callback returned `result`; `UpdateItem` is next. -/
  | finalize (result : R)
  /-- Returned `(result, err)`. -/
  | done (result : R) (err : Option GoError)
deriving DecidableEq, Repr

/-- One atomic action of a caller. -/
def step {R : Type} [GoZero R] [DecidableEq R] (env : Env R) (key : String)
    (callback : Callback R) : Pc R → World R → Pc R × World R
  | .start, w =>
    match env.loadConfig with
    | some err => (.done GoZero.zero (some err), w)
    | none =>
      match env.buildCondition with
      | some _ => (.done GoZero.zero (some ErrPersistanceLayer), w)
      | none =>
        let item : Item R :=
          { PK := key, Status := "IN_PROGRESS", TTL := env.now + 360, Result := GoZero.zero }
        match putItem env.putTurn item w with
        | (none, w1) => (.ready, w1)
        | (some err, w1) =>
          if errorsAsConditionFailed err then (.conflict, w1)
          else (.done GoZero.zero (some (wrapPersistance err)), w1)
  | .conflict, w =>
    match get env.getTurn key w with
    | ((_, some getErr), w2) => (.done GoZero.zero (some (wrapPersistance getErr)), w2)
    | ((got, none), w2) =>
      if got.Status = "IN_PROGRESS" then (.done GoZero.zero (some inProgressError), w2)
      else if got.TTL < env.now then (.reclaim, w2)
      else if got.Result ≠ GoZero.zero then (.done got.Result none, w2)
      else (.ready, w2)
  | .reclaim, w => (.ready, (delete env.reclaimTurn key w).2)
  | .ready, w =>
    match callback () with
    | (_, some err) => (.cleanup err, w.invoke)
    | (result, none) => (.finalize result, w.invoke)
  | .cleanup err, w =>
    match delete env.cleanupTurn key w with
    | (some delErr, w3) => (.done GoZero.zero (some delErr), w3)
    | (none, w3) => (.done GoZero.zero (some err), w3)
  | .finalize result, w =>
    match update env.updateTurn result key w with
    | (some err, w3) => (.done GoZero.zero (some err), w3)
    | (none, w3) => (.done result none, w3)
  | .done result err, w => (.done result err, w)

/-- A caller running alone for `fuel` steps. -/
def runSolo {R : Type} [GoZero R] [DecidableEq R] (env : Env R) (key : String)
    (callback : Callback R) : Nat → Pc R × World R → Pc R × World R
  | 0, s => s
  | fuel + 1, s => runSolo env key callback fuel (step env key callback s.1 s.2)

/-- Callers `0 .. n-1` of `Idempotent` on one key, sharing one world. -/
structure Fleet (R : Type) where
  /-- The shared table and the common log. -/
  world : World R
  /-- Control state of each caller. -/
  pcs : Nat → Pc R

/-- Nobody has done anything yet. -/
def Fleet.start {R : Type} (t : Table R) : Fleet R :=
  { world := World.start t, pcs := fun _ => Pc.start }

/-- Caller `i` takes its next step; an index that names no caller changes nothing. -/
def Fleet.step {R : Type} [GoZero R] [DecidableEq R] (n : Nat) (envs : Nat → Env R)
    (key : String) (callback : Callback R) (f : Fleet R) (i : Nat) : Fleet R :=
  if i < n then
    let s := Idempotency.step (envs i) key callback (f.pcs i) f.world
    { world := s.2, pcs := fun j => if j = i then s.1 else f.pcs j }
  else f

/-- Run a schedule: the list of callers in the order in which they step. -/
def Fleet.run {R : Type} [GoZero R] [DecidableEq R] (n : Nat) (envs : Nat → Env R)
    (key : String) (callback : Callback R) (sched : List Nat) (f : Fleet R) : Fleet R :=
  sched.foldl (Fleet.step n envs key callback) f

/-- Number of callback invocations in a log. -/
def invocations (calls : List Call) : Nat := calls.count Call.callback

/-- Every caller below `n` has returned. -/
def Fleet.allDone {R : Type} (n : Nat) (f : Fleet R) : Prop :=
  ∀ i, i < n → ∃ result err, f.pcs i = Pc.done result err

/-! ## Invariant of the concurrent run

The callers run with every store call succeeding, and the callback returns
`(r, nil)`.  Caller `i` reads the clock value `nows i`. -/

/-- The record written by the conditional create of a caller whose clock reads `now`. -/
def claimRecord (R : Type) [GoZero R] (key : String) (now : Int) : Item R :=
  { PK := key, TTL := now + 360, Status := "IN_PROGRESS", Result := GoZero.zero }

/-- The claim of a caller whose clock reads `now`, after its update with result `r`. -/
def completedRecord {R : Type} (key : String) (now : Int) (r : R) : Item R :=
  { PK := key, TTL := now + 360, Status := "COMPLETED", Result := r }

/-- A caller that has not invoked the callback and never will while the claim of
another caller is in progress: it has not put yet, or it lost the put, or it has
returned the in-progress error. -/
def Pc.waiting {R : Type} [GoZero R] (p : Pc R) : Prop :=
  p = Pc.start ∨ p = Pc.conflict ∨ p = Pc.done GoZero.zero (some inProgressError)

/-- A waiting caller, or one that has returned the completed result `r`. -/
def Pc.served {R : Type} [GoZero R] (r : R) (p : Pc R) : Prop :=
  p.waiting ∨ p = Pc.done r none

/-- Nobody has put yet. -/
def Fleet.idle {R : Type} (key : String) (f : Fleet R) : Prop :=
  f.world.table key = none ∧ invocations f.world.calls = 0 ∧ ∀ i, f.pcs i = Pc.start

/-- Caller `w` holds the claim and is about to invoke the callback. -/
def Fleet.claimed {R : Type} [GoZero R] (nows : Nat → Int) (key : String) (w : Nat)
    (f : Fleet R) : Prop :=
  f.world.table key = some (claimRecord R key (nows w)) ∧ invocations f.world.calls = 0 ∧
  f.pcs w = Pc.ready ∧ ∀ j, j ≠ w → (f.pcs j).waiting

/-- Caller `w` holds the claim and has invoked the callback. -/
def Fleet.ran {R : Type} [GoZero R] (nows : Nat → Int) (key : String) (r : R) (w : Nat)
    (f : Fleet R) : Prop :=
  f.world.table key = some (claimRecord R key (nows w)) ∧ invocations f.world.calls = 1 ∧
  f.pcs w = Pc.finalize r ∧ ∀ j, j ≠ w → (f.pcs j).waiting

/-- Caller `w` has stored the result and returned it. -/
def Fleet.completed {R : Type} [GoZero R] (nows : Nat → Int) (key : String) (r : R) (w : Nat)
    (f : Fleet R) : Prop :=
  f.world.table key = some (completedRecord key (nows w) r) ∧ invocations f.world.calls = 1 ∧
  f.pcs w = Pc.done r none ∧ ∀ j, j ≠ w → (f.pcs j).served r

/-- The invariant: the run is in one of the four phases. -/
def Fleet.inv {R : Type} [GoZero R] (n : Nat) (nows : Nat → Int) (key : String) (r : R)
    (f : Fleet R) : Prop :=
  f.idle key ∨
  ∃ w, w < n ∧ (f.claimed nows key w ∨ f.ran nows key r w ∨ f.completed nows key r w)

/-- An upper bound on the steps a caller still takes in such a run. -/
def Pc.rank {R : Type} : Pc R → Nat
  | .start => 3
  | .ready => 2
  | .conflict => 1
  | .reclaim => 1
  | .cleanup _ => 1
  | .finalize _ => 1
  | .done _ _ => 0

/-- No client other than the caller writes around any of its store calls. -/
def Env.alone {R : Type} (env : Env R) : Prop :=
  env.putTurn.others = id ∧ env.getTurn.others = id ∧ env.reclaimTurn.others = id ∧
  env.cleanupTurn.others = id ∧ env.updateTurn.others = id

/-- A logged call that is neither a delete nor an update for `key`. -/
def Call.keeps (key : String) (c : Call) : Prop :=
  c ≠ Call.deleteItem key ∧ c ≠ Call.updateItem key

/-! ## Theorems -/

section Sequential

variable {R : Type} [GoZero R] [DecidableEq R]

/-- Every error built by `fmt.Errorf("%s: %w", err.Error(), ErrPersistanceLayer)`
matches `ErrPersistanceLayer` under `errors.Is`. -/
theorem errorsIs_wrapPersistance (err : GoError) :
    errorsIs (wrapPersistance err) ErrPersistanceLayer = true := by
  simp [wrapPersistance, errorsIs, ErrPersistanceLayer]

/-- C6, success path.  The key has no record, the configuration loads, the
conditional create and the update are served without failure and without
another writer, and the callback returns `(r, nil)`.  Then the callback is
invoked exactly once, the call returns `(r, nil)`, the table holds for the key
the record `COMPLETED` with result `r` and TTL `now + 360`, and the record of
every other key is as before. -/
theorem success_path (env : Env R) (key : String) (callback : Callback R) (t : Table R) (r : R)
    (hcfg : env.loadConfig = none) (hbuild : env.buildCondition = none)
    (hput : env.putTurn = Turn.calm R) (hupd : env.updateTurn = Turn.calm R)
    (habsent : t key = none) (hcb : callback () = (r, none)) :
    (Idempotent env key callback (World.start t)).1 = (r, none) ∧
    invocations (Idempotent env key callback (World.start t)).2.calls = 1 ∧
    (Idempotent env key callback (World.start t)).2.table key =
      some { PK := key, TTL := env.now + 360, Status := "COMPLETED", Result := r } ∧
    ∀ k, k ≠ key → (Idempotent env key callback (World.start t)).2.table k = t k := by
  simp [Idempotent, saveInProgress, putItem, update, updateItem, World.invoke, World.start,
    Turn.calm, Table.insert, Table.set, invocations, hcfg, hbuild, hput, hupd, habsent, hcb]
  intro k hk
  simp [hk]

/-- The scenario of the specification: key `order-42`, result `ok`, clock 1000. -/
theorem success_path_witness :
    (Idempotent (Env.calm String 1000) "order-42" (fun _ => ("ok", none))
        (World.start (Table.empty String))).1 = ("ok", none) ∧
    invocations (Idempotent (Env.calm String 1000) "order-42" (fun _ => ("ok", none))
        (World.start (Table.empty String))).2.calls = 1 ∧
    (Idempotent (Env.calm String 1000) "order-42" (fun _ => ("ok", none))
        (World.start (Table.empty String))).2.table "order-42" =
      some { PK := "order-42", TTL := (Env.calm String 1000).now + 360, Status := "COMPLETED",
             Result := "ok" } ∧
    ∀ k, k ≠ "order-42" →
      (Idempotent (Env.calm String 1000) "order-42" (fun _ => ("ok", none))
        (World.start (Table.empty String))).2.table k = Table.empty String k :=
  success_path (Env.calm String 1000) "order-42" (fun _ => ("ok", none)) (Table.empty String)
    "ok" rfl rfl rfl rfl rfl rfl

/-- C7, scenario replay inside the window.  A first call for `order-42` at time
`t1`, on a table without a record for it, with a callback returning
`("ok", nil)` and every store call succeeding, returns `("ok", nil)`.  A second
call at any time `t2` with `t1 ≤ t2 < t1 + 360` and any callback then returns
`("ok", nil)`; it issues the rejected conditional put and the get and nothing
else (no callback invocation, no delete, no update) and the table is as the
first call left it. -/
theorem scenario_replay_inside_window (t : Table String) (t1 t2 : Int)
    (op1 op2 : Callback String) (habsent : t "order-42" = none)
    (hop1 : op1 () = ("ok", none)) (hlo : t1 ≤ t2) (hhi : t2 < t1 + 360) :
    (Idempotent (Env.calm String t1) "order-42" op1 (World.start t)).1 = ("ok", none) ∧
    (Idempotent (Env.calm String t2) "order-42" op2
      (World.start (Idempotent (Env.calm String t1) "order-42" op1 (World.start t)).2.table)).1
        = ("ok", none) ∧
    (Idempotent (Env.calm String t2) "order-42" op2
      (World.start (Idempotent (Env.calm String t1) "order-42" op1 (World.start t)).2.table)).2.calls
        = [Call.putItem "order-42", Call.getItem "order-42"] ∧
    (Idempotent (Env.calm String t2) "order-42" op2
      (World.start (Idempotent (Env.calm String t1) "order-42" op1 (World.start t)).2.table)).2.table
        = (Idempotent (Env.calm String t1) "order-42" op1 (World.start t)).2.table := by
  have hnot : ¬ (t1 + 360 < t2) := by omega
  have _hlater : t1 ≤ t2 := hlo
  simp [Idempotent, saveInProgress, putItem, update, updateItem, get, getItem, World.invoke,
    World.start, Env.calm, Turn.calm, Table.insert, Table.set, habsent, hop1, errorsAsConditionFailed, hnot,
    GoZero.zero]

/-- The scenario with the first call at 1000 and the second at 1359. -/
theorem scenario_replay_inside_window_witness :
    Table.empty String "order-42" = none ∧ (1000 : Int) ≤ 1359 ∧ (1359 : Int) < 1000 + 360 ∧
    (Idempotent (Env.calm String 1359) "order-42" (fun _ => ("other", none))
      (World.start (Idempotent (Env.calm String 1000) "order-42" (fun _ => ("ok", none))
        (World.start (Table.empty String))).2.table)).1 = ("ok", none) :=
  ⟨rfl, by decide, by decide,
    (scenario_replay_inside_window (Table.empty String) 1000 1359 (fun _ => ("ok", none))
      (fun _ => ("other", none)) rfl rfl (by decide) (by decide)).2.1⟩

/-- C2, counterexample.  On the empty table, a first call whose callback returns
the zero value `""` returns `("", nil)`; a second call at the same clock value
invokes its callback and returns that callback result.  And after a first call
that returned `("ok", nil)` at time 1000, a call at time 1361 invokes its
callback as well. -/
theorem replay_counterexample :
    (Idempotent (Env.calm String 1000) "k" (fun _ => ("", none))
        (World.start (Table.empty String))).1 = ("", none) ∧
    (Idempotent (Env.calm String 1000) "k" (fun _ => ("again", none))
      (World.start (Idempotent (Env.calm String 1000) "k" (fun _ => ("", none))
        (World.start (Table.empty String))).2.table)).1 = ("again", none) ∧
    Call.callback ∈ (Idempotent (Env.calm String 1000) "k" (fun _ => ("again", none))
      (World.start (Idempotent (Env.calm String 1000) "k" (fun _ => ("", none))
        (World.start (Table.empty String))).2.table)).2.calls ∧
    (Idempotent (Env.calm String 1000) "k" (fun _ => ("ok", none))
        (World.start (Table.empty String))).1 = ("ok", none) ∧
    (Idempotent (Env.calm String 1361) "k" (fun _ => ("again", none))
      (World.start (Idempotent (Env.calm String 1000) "k" (fun _ => ("ok", none))
        (World.start (Table.empty String))).2.table)).1 = ("again", none) ∧
    Call.callback ∈ (Idempotent (Env.calm String 1361) "k" (fun _ => ("again", none))
      (World.start (Idempotent (Env.calm String 1000) "k" (fun _ => ("ok", none))
        (World.start (Table.empty String))).2.table)).2.calls := by
  decide

/-- C2 as amended.  A first call on a table without a record for the key, with no
other writer, returns `(r, nil)` with `r` different from the zero value.  Then a
later call at a clock value `t2 ≤ now + 360`, every store call succeeding,
returns `(r, nil)` whatever its callback, does not invoke that callback, and `r`
is the result stored in the record. -/
theorem replay_returns_stored_result (env1 : Env R) (key : String) (r : R)
    (op1 op2 : Callback R) (t : Table R) (t2 : Int) (habsent : t key = none)
    (hput : env1.putTurn.others = id) (hupd : env1.updateTurn.others = id)
    (hfirst : (Idempotent env1 key op1 (World.start t)).1 = (r, none))
    (hnz : r ≠ GoZero.zero) (hwin : t2 ≤ env1.now + 360) :
    (Idempotent (Env.calm R t2) key op2
      (World.start (Idempotent env1 key op1 (World.start t)).2.table)).1 = (r, none) ∧
    Call.callback ∉ (Idempotent (Env.calm R t2) key op2
      (World.start (Idempotent env1 key op1 (World.start t)).2.table)).2.calls ∧
    ((Idempotent env1 key op1 (World.start t)).2.table key).map Item.Result = some r := by
  have hnot : ¬ (env1.now + 360 < t2) := by omega
  have hnz2 : ¬ (GoZero.zero = r) := fun h => hnz h.symm
  rcases hc : env1.loadConfig with _ | e0
  · rcases hb : env1.buildCondition with _ | e1
    · rcases hf : env1.putTurn.fault with _ | e2
      · rcases hcb : op1 () with ⟨res, _ | e3⟩
        · rcases hu : env1.updateTurn.fault with _ | e4
          · simp [Idempotent, saveInProgress, putItem, update, updateItem, World.invoke,
              World.start, Table.insert, Table.set, hc, hb, hf, hcb, hu, hput, hupd, habsent] at hfirst
            subst hfirst
            simp [Idempotent, saveInProgress, putItem, update, updateItem, get, getItem,
              World.invoke, World.start, Table.insert, Table.set, Env.calm, Turn.calm,
              errorsAsConditionFailed, hc, hb, hf, hcb, hu, hput, hupd, habsent, hnot, hnz]
          · simp [Idempotent, saveInProgress, putItem, update, updateItem, World.invoke,
              World.start, Table.insert, Table.set, hc, hb, hf, hcb, hu, hput, hupd, habsent] at hfirst
        · rcases hd : env1.cleanupTurn.fault with _ | e5 <;>
          simp [Idempotent, saveInProgress, putItem, delete, deleteItem, World.invoke,
              World.start, Table.insert, Table.set, hc, hb, hf, hcb, hd, hput, hupd, habsent, hnz2] at hfirst
      · simp [Idempotent, saveInProgress, putItem, World.start, hc, hb, hf,
          errorsAsConditionFailed] at hfirst
    · simp [Idempotent, saveInProgress, hc, hb] at hfirst
  · simp [Idempotent, hc] at hfirst

/-- A first call at 1000 returning `ok`, replayed at 1360, the last second of the window. -/
theorem replay_returns_stored_result_witness :
    Table.empty String "order-42" = none ∧ ("ok" : String) ≠ GoZero.zero ∧
    (1360 : Int) ≤ (Env.calm String 1000).now + 360 ∧
    (Idempotent (Env.calm String 1360) "order-42" (fun _ => ("other", none))
      (World.start (Idempotent (Env.calm String 1000) "order-42" (fun _ => ("ok", none))
        (World.start (Table.empty String))).2.table)).1 = ("ok", none) :=
  ⟨rfl, by decide, by decide,
    (replay_returns_stored_result (Env.calm String 1000) "order-42" "ok" (fun _ => ("ok", none))
      (fun _ => ("other", none)) (Table.empty String) 1360 rfl rfl rfl (by decide) (by decide)
      (by decide)).1⟩

/-- C3, counterexample.  The table holds for `k` a record `IN_PROGRESS` with TTL
100 and the clock reads 1000, so the claim is expired.  The call returns the
in-progress error; it issues the put and the get only: no delete, no callback
invocation, and the stale record is still there. -/
theorem stale_reclaim_counterexample :
    (Idempotent (Env.calm String 1000) "k" (fun _ => ("ok", none))
      (World.start (Table.insert (Table.empty String)
        { PK := "k", TTL := 100, Status := "IN_PROGRESS", Result := "" }))).1
      = ("", some inProgressError) ∧
    (Idempotent (Env.calm String 1000) "k" (fun _ => ("ok", none))
      (World.start (Table.insert (Table.empty String)
        { PK := "k", TTL := 100, Status := "IN_PROGRESS", Result := "" }))).2.calls
      = [Call.putItem "k", Call.getItem "k"] ∧
    (Idempotent (Env.calm String 1000) "k" (fun _ => ("ok", none))
      (World.start (Table.insert (Table.empty String)
        { PK := "k", TTL := 100, Status := "IN_PROGRESS", Result := "" }))).2.table "k"
      = some { PK := "k", TTL := 100, Status := "IN_PROGRESS", Result := "" } := by
  decide

/-- C3 as amended.  The table holds for the key a record whose TTL is strictly
less than the current time and every store call succeeds.  When the status of
the record is `IN_PROGRESS` the call fails with the in-progress error after the
put and the get, without a delete and without invoking the callback, and the
table is unchanged.  When the status is anything else the call issues the put,
the get and a delete for the key and then invokes the callback; the delete has
removed the record: the table on which the callback is invoked holds no record
for the key and holds for every other key what it held before the call.  When
the callback returns `(r, nil)` the call returns `(r, nil)`. -/
theorem expired_record_handling (now : Int) (key : String) (callback : Callback R)
    (t : Table R) (old : Item R) (hold : t key = some old) (hexp : old.TTL < now) :
    (old.Status = "IN_PROGRESS" →
      (Idempotent (Env.calm R now) key callback (World.start t)).1
        = (GoZero.zero, some inProgressError) ∧
      (Idempotent (Env.calm R now) key callback (World.start t)).2.calls
        = [Call.putItem key, Call.getItem key] ∧
      (Idempotent (Env.calm R now) key callback (World.start t)).2.table = t) ∧
    (old.Status ≠ "IN_PROGRESS" →
      (Idempotent (Env.calm R now) key callback (World.start t)).2.calls.take 4
        = [Call.putItem key, Call.getItem key, Call.deleteItem key, Call.callback] ∧
      (∃ table,
        (Idempotent (Env.calm R now) key callback (World.start t)).2.atCallback = some table ∧
        table key = none ∧ ∀ k, k ≠ key → table k = t k) ∧
      ∀ r, callback () = (r, none) →
        (Idempotent (Env.calm R now) key callback (World.start t)).1 = (r, none)) := by
  constructor
  · intro hs
    simp [Idempotent, saveInProgress, putItem, get, getItem, World.start, Env.calm, Turn.calm,
      errorsAsConditionFailed, inProgressError, hold, hs]
  · intro hs
    rcases hcb : callback () with ⟨res, _ | e⟩
    · simp [Idempotent, saveInProgress, putItem, get, getItem, delete, deleteItem, update,
        updateItem, Table.set, World.invoke, World.start, Env.calm, Turn.calm, Table.erase,
        errorsAsConditionFailed, hold, hs, hexp, hcb]
      intro k hk
      simp [hk]
    · simp [Idempotent, saveInProgress, putItem, get, getItem, delete, deleteItem, update,
        updateItem, Table.set, World.invoke, World.start, Env.calm, Turn.calm, Table.erase,
        errorsAsConditionFailed, hold, hs, hexp, hcb]
      intro k hk
      simp [hk]

/-- An expired `COMPLETED` record met at clock 1000: the callback is invoked on a
table without the record, and its result is returned. -/
theorem expired_record_handling_witness :
    (100 : Int) < 1000 ∧
    ((Idempotent (Env.calm String 1000) "k" (fun _ => ("new", none))
      (World.start (Table.insert (Table.empty String)
        { PK := "k", TTL := 100, Status := "COMPLETED", Result := "old" }))).2.atCallback.map
      (fun table => table "k")) = some none ∧
    (Idempotent (Env.calm String 1000) "k" (fun _ => ("new", none))
      (World.start (Table.insert (Table.empty String)
        { PK := "k", TTL := 100, Status := "COMPLETED", Result := "old" }))).1 = ("new", none) :=
  ⟨by decide, by decide,
    ((expired_record_handling 1000 "k" (fun _ => ("new", none))
      (Table.insert (Table.empty String)
        { PK := "k", TTL := 100, Status := "COMPLETED", Result := "old" })
      { PK := "k", TTL := 100, Status := "COMPLETED", Result := "old" } rfl (by decide)).2
        (by decide)).2.2 "new" rfl⟩

/-- C4, counterexample.  The table holds for `k` a record `IN_PROGRESS` with TTL
2000 and the clock reads 1000, so the claim is live.  The error the call returns
matches `ErrPersistanceLayer` under `errors.Is`. -/
theorem live_claim_counterexample :
    ∃ err,
      (Idempotent (Env.calm String 1000) "k" (fun _ => ("ok", none))
        (World.start (Table.insert (Table.empty String)
          { PK := "k", TTL := 2000, Status := "IN_PROGRESS", Result := "" }))).1
        = ("", some err) ∧
      errorsIs err ErrPersistanceLayer = true :=
  ⟨inProgressError, by decide, by decide⟩

/-- C4 as amended.  The table holds for the key a record `IN_PROGRESS` whose TTL
is greater than the current time and every store call succeeds.  Then the call
returns, with the zero result, the error of line 123, whose text is
`in progress!: persistance layer error` and which matches `ErrPersistanceLayer`
under `errors.Is`; the callback is not invoked and the table is unchanged. -/
theorem live_claim_fails_fast (now : Int) (key : String) (callback : Callback R)
    (t : Table R) (old : Item R) (hold : t key = some old)
    (hstatus : old.Status = "IN_PROGRESS") (hlive : now < old.TTL) :
    (Idempotent (Env.calm R now) key callback (World.start t)).1
      = (GoZero.zero, some inProgressError) ∧
    inProgressError.Error = "in progress!: persistance layer error" ∧
    errorsIs inProgressError ErrPersistanceLayer = true ∧
    Call.callback ∉ (Idempotent (Env.calm R now) key callback (World.start t)).2.calls ∧
    (Idempotent (Env.calm R now) key callback (World.start t)).2.table = t := by
  have _hlive : now < old.TTL := hlive
  refine ⟨?_, by decide, by decide, ?_, ?_⟩ <;>
  simp [Idempotent, saveInProgress, putItem, get, getItem, World.start, Env.calm, Turn.calm,
    errorsAsConditionFailed, inProgressError, hold, hstatus]

/-- A live claim with TTL 2000 met at clock 1000. -/
theorem live_claim_fails_fast_witness :
    (1000 : Int) < 2000 ∧
    (Idempotent (Env.calm String 1000) "k" (fun _ => ("ok", none))
      (World.start (Table.insert (Table.empty String)
        { PK := "k", TTL := 2000, Status := "IN_PROGRESS", Result := "" }))).1
      = ("", some inProgressError) :=
  ⟨by decide,
    (live_claim_fails_fast 1000 "k" (fun _ => ("ok", none))
      (Table.insert (Table.empty String)
        { PK := "k", TTL := 2000, Status := "IN_PROGRESS", Result := "" })
      { PK := "k", TTL := 2000, Status := "IN_PROGRESS", Result := "" } rfl rfl (by decide)).1⟩

/-- C5, cleanup on operation failure.  In every call that invokes the callback,
the callback returning a non-nil error `e`, the callback invocation is followed
by a delete for the key and by nothing else.  When the delete succeeds the table
holds no record for the key afterwards and the call returns the zero result with
exactly `e`; when the delete fails with text `text` the call returns the zero
result with the wrapped failure of the delete, which matches
`ErrPersistanceLayer`, instead of `e`. -/
theorem cleanup_on_callback_failure (env : Env R) (key : String) (callback : Callback R)
    (t : Table R) (r0 : R) (e : GoError) (hcb : callback () = (r0, some e))
    (hinv : Call.callback ∈ (Idempotent env key callback (World.start t)).2.calls) :
    (∃ before, (Idempotent env key callback (World.start t)).2.calls
        = before ++ [Call.callback, Call.deleteItem key]) ∧
    (env.cleanupTurn.fault = none →
      (Idempotent env key callback (World.start t)).2.table key = none ∧
      (Idempotent env key callback (World.start t)).1 = (GoZero.zero, some e)) ∧
    (∀ text, env.cleanupTurn.fault = some text →
      (Idempotent env key callback (World.start t)).1
        = (GoZero.zero, some (wrapPersistance (.other text))) ∧
      errorsIs (wrapPersistance (.other text)) ErrPersistanceLayer = true) := by
  rcases hc : env.loadConfig with _ | e0
  · rcases hb : env.buildCondition with _ | e1
    · rcases hf : env.putTurn.fault with _ | e2
      · rcases hp : env.putTurn.others t key with _ | old
        · rcases hd : env.cleanupTurn.fault with _ | e5 <;>
          simp [Idempotent, saveInProgress, putItem, delete, deleteItem, World.invoke,
            World.start, Table.insert, Table.set, Table.erase, errorsIs_wrapPersistance, hc, hb, hf, hp,
            hcb, hd] <;>
          exact ⟨[_], rfl⟩
        · rcases hg : env.getTurn.fault with _ | e3
          · rcases hr : env.getTurn.others (env.putTurn.others t) key with _ | got
            · simp [Idempotent, saveInProgress, putItem, get, getItem, World.invoke,
                World.start, errorsAsConditionFailed, hc, hb, hf, hp, hg, hr] at hinv
            · by_cases hs : got.Status = "IN_PROGRESS"
              · simp [Idempotent, saveInProgress, putItem, get, getItem, World.invoke,
                  World.start, errorsAsConditionFailed, hc, hb, hf, hp, hg, hr, hs] at hinv
              · by_cases ht : got.TTL < env.now
                · rcases hd : env.cleanupTurn.fault with _ | e5 <;>
                  rcases hrd : env.reclaimTurn.fault with _ | e6 <;>
                  simp [Idempotent, saveInProgress, putItem, get, getItem, delete, deleteItem,
                    World.invoke, World.start, Table.insert, Table.set, Table.erase,
                    errorsAsConditionFailed, errorsIs_wrapPersistance, hc, hb, hf, hp, hg, hr,
                    hs, ht, hcb, hd, hrd] <;>
                  exact ⟨[_, _, _], rfl⟩
                · by_cases hz : got.Result = GoZero.zero
                  · rcases hd : env.cleanupTurn.fault with _ | e5 <;>
                    simp [Idempotent, saveInProgress, putItem, get, getItem, delete, deleteItem,
                      World.invoke, World.start, Table.insert, Table.set, Table.erase,
                      errorsAsConditionFailed, errorsIs_wrapPersistance, hc, hb, hf, hp, hg, hr,
                      hs, ht, hz, hcb, hd] <;>
                    exact ⟨[_, _], rfl⟩
                  · simp [Idempotent, saveInProgress, putItem, get, getItem, World.invoke,
                      World.start, errorsAsConditionFailed, hc, hb, hf, hp, hg, hr, hs, ht, hz]
                      at hinv
          · simp [Idempotent, saveInProgress, putItem, get, getItem, World.invoke,
              World.start, errorsAsConditionFailed, hc, hb, hf, hp, hg] at hinv
      · simp [Idempotent, saveInProgress, putItem, World.start, hc, hb, hf,
          errorsAsConditionFailed] at hinv
    · simp [Idempotent, saveInProgress, hc, hb, World.start] at hinv
  · simp [Idempotent, hc, World.start] at hinv

/-- A fresh claim whose callback fails with `boom`: the record is gone and `boom` comes back. -/
theorem cleanup_on_callback_failure_witness :
    Call.callback ∈ (Idempotent (Env.calm String 1000) "k" (fun _ => ("", some (.other "boom")))
      (World.start (Table.empty String))).2.calls ∧
    (Idempotent (Env.calm String 1000) "k" (fun _ => ("", some (.other "boom")))
      (World.start (Table.empty String))).2.table "k" = none ∧
    (Idempotent (Env.calm String 1000) "k" (fun _ => ("", some (.other "boom")))
      (World.start (Table.empty String))).1 = (GoZero.zero, some (.other "boom")) :=
  ⟨by decide,
    (cleanup_on_callback_failure (Env.calm String 1000) "k"
      (fun _ => ("", some (.other "boom"))) (Table.empty String) "" (.other "boom") rfl
      (by decide)).2.1 rfl⟩

/-- C8, counterexample.  Two calls in which the callback is invoked and returns
`("ok", nil)` and the update then fails, the table staying as it was.  In the
first the table holds for `k` an expired `COMPLETED` record (TTL 0 at clock
1000): the call deletes it, and where the claim expects an `IN_PROGRESS` record
the table holds no record for `k`.  In the second the table holds an unexpired
`COMPLETED` record with the zero result `""`: the table still holds that
`COMPLETED` record.  Both calls return the update failure. -/
theorem update_failure_counterexample :
    (Call.callback ∈
      (Idempotent { Env.calm String 1000 with updateTurn := { others := id, fault := some "down" } }
        "k" (fun _ => ("ok", none))
        (World.start (Table.insert (Table.empty String)
          { PK := "k", TTL := 0, Status := "COMPLETED", Result := "old" }))).2.calls ∧
    (Idempotent { Env.calm String 1000 with updateTurn := { others := id, fault := some "down" } }
        "k" (fun _ => ("ok", none))
        (World.start (Table.insert (Table.empty String)
          { PK := "k", TTL := 0, Status := "COMPLETED", Result := "old" }))).1
      = ("", some (wrapPersistance (.other "down"))) ∧
    (Idempotent { Env.calm String 1000 with updateTurn := { others := id, fault := some "down" } }
        "k" (fun _ => ("ok", none))
        (World.start (Table.insert (Table.empty String)
          { PK := "k", TTL := 0, Status := "COMPLETED", Result := "old" }))).2.table "k"
      = none) ∧
    (Call.callback ∈
      (Idempotent { Env.calm String 1000 with updateTurn := { others := id, fault := some "down" } }
        "k" (fun _ => ("ok", none))
        (World.start (Table.insert (Table.empty String)
          { PK := "k", TTL := 1200, Status := "COMPLETED", Result := "" }))).2.calls ∧
    (Idempotent { Env.calm String 1000 with updateTurn := { others := id, fault := some "down" } }
        "k" (fun _ => ("ok", none))
        (World.start (Table.insert (Table.empty String)
          { PK := "k", TTL := 1200, Status := "COMPLETED", Result := "" }))).1
      = ("", some (wrapPersistance (.other "down"))) ∧
    (Idempotent { Env.calm String 1000 with updateTurn := { others := id, fault := some "down" } }
        "k" (fun _ => ("ok", none))
        (World.start (Table.insert (Table.empty String)
          { PK := "k", TTL := 1200, Status := "COMPLETED", Result := "" }))).2.table "k"
      = some { PK := "k", TTL := 1200, Status := "COMPLETED", Result := "" }) := by
  decide

/-- C8 as amended.  In every call that invokes the callback, the callback
returning `(r, nil)` and the update then failing with text `text` and leaving
the table as it was, the call returns the zero result with the wrapped update
failure, which matches `ErrPersistanceLayer`.  When moreover the call reached
the callback through its own conditional create (served without failure, no
record for the key being there), the table still holds for the key the record
`IN_PROGRESS` with TTL `now + 360` that the create wrote. -/
theorem update_failure (env : Env R) (key : String) (callback : Callback R) (t : Table R)
    (r : R) (text : String) (hcb : callback () = (r, none))
    (hfault : env.updateTurn.fault = some text) (hquiet : env.updateTurn.others = id)
    (hinv : Call.callback ∈ (Idempotent env key callback (World.start t)).2.calls) :
    (Idempotent env key callback (World.start t)).1
      = (GoZero.zero, some (wrapPersistance (.other text))) ∧
    errorsIs (wrapPersistance (.other text)) ErrPersistanceLayer = true ∧
    (env.putTurn.fault = none → env.putTurn.others t key = none →
      (Idempotent env key callback (World.start t)).2.table key
        = some { PK := key, TTL := env.now + 360, Status := "IN_PROGRESS",
                 Result := GoZero.zero }) := by
  refine ⟨?_, errorsIs_wrapPersistance _, ?_⟩
  · rcases hc : env.loadConfig with _ | e0
    · rcases hb : env.buildCondition with _ | e1
      · rcases hf : env.putTurn.fault with _ | e2
        · rcases hp : env.putTurn.others t key with _ | old
          · simp [Idempotent, saveInProgress, putItem, update, updateItem, Table.set, World.invoke,
              World.start, hc, hb, hf, hp, hcb, hfault]
          · rcases hg : env.getTurn.fault with _ | e3
            · rcases hr : env.getTurn.others (env.putTurn.others t) key with _ | got
              · simp [Idempotent, saveInProgress, putItem, get, getItem, World.invoke,
                  World.start, errorsAsConditionFailed, hc, hb, hf, hp, hg, hr] at hinv
              · by_cases hs : got.Status = "IN_PROGRESS"
                · simp [Idempotent, saveInProgress, putItem, get, getItem, World.invoke,
                    World.start, errorsAsConditionFailed, hc, hb, hf, hp, hg, hr, hs] at hinv
                · by_cases ht : got.TTL < env.now
                  · simp [Idempotent, saveInProgress, putItem, get, getItem, update,
                      updateItem, Table.set, World.invoke, World.start, errorsAsConditionFailed, hc, hb,
                      hf, hp, hg, hr, hs, ht, hcb, hfault]
                  · by_cases hz : got.Result = GoZero.zero
                    · simp [Idempotent, saveInProgress, putItem, get, getItem, update,
                        updateItem, Table.set, World.invoke, World.start, errorsAsConditionFailed, hc, hb,
                        hf, hp, hg, hr, hs, ht, hz, hcb, hfault]
                    · simp [Idempotent, saveInProgress, putItem, get, getItem, World.invoke,
                        World.start, errorsAsConditionFailed, hc, hb, hf, hp, hg, hr, hs, ht, hz]
                        at hinv
            · simp [Idempotent, saveInProgress, putItem, get, getItem, World.invoke,
                World.start, errorsAsConditionFailed, hc, hb, hf, hp, hg] at hinv
        · simp [Idempotent, saveInProgress, putItem, World.start, hc, hb, hf,
            errorsAsConditionFailed] at hinv
      · simp [Idempotent, saveInProgress, hc, hb, World.start] at hinv
    · simp [Idempotent, hc, World.start] at hinv
  · intro hf hp
    rcases hc : env.loadConfig with _ | e0
    · rcases hb : env.buildCondition with _ | e1
      · simp [Idempotent, saveInProgress, putItem, update, updateItem, World.invoke,
          World.start, Table.insert, Table.set, hc, hb, hf, hp, hcb, hfault, hquiet]
      · simp [Idempotent, saveInProgress, hc, hb, World.start] at hinv
    · simp [Idempotent, hc, World.start] at hinv

/-- A fresh claim whose update fails: the failure comes back and the claim stays. -/
theorem update_failure_witness :
    Call.callback ∈
      (Idempotent { Env.calm String 1000 with updateTurn := { others := id, fault := some "down" } }
        "k" (fun _ => ("ok", none)) (World.start (Table.empty String))).2.calls ∧
    (Idempotent { Env.calm String 1000 with updateTurn := { others := id, fault := some "down" } }
        "k" (fun _ => ("ok", none)) (World.start (Table.empty String))).2.table "k"
      = some { PK := "k", TTL := 1000 + 360, Status := "IN_PROGRESS", Result := GoZero.zero } :=
  ⟨by decide,
    (update_failure { Env.calm String 1000 with updateTurn := { others := id, fault := some "down" } }
      "k" (fun _ => ("ok", none)) (Table.empty String) "ok" "down" rfl rfl rfl
      (by decide)).2.2 rfl rfl⟩

/-- C9, vanished record after conflict.  The configuration loads, the conditional
create is served and fails its condition (a record for the key is there when it
is served), and the get that follows is served and finds no item for the key.
Then the call returns the zero result with `errItemNotFound` wrapped as a
persistence error, which matches `ErrPersistanceLayer` under `errors.Is`; the
calls it made are that one put and that one get and nothing else: no retry, no
callback invocation, no further store call. -/
theorem vanished_record_after_conflict (env : Env R) (key : String) (callback : Callback R)
    (t : Table R) (hcfg : env.loadConfig = none) (hbuild : env.buildCondition = none)
    (hput : env.putTurn.fault = none) (hconflict : env.putTurn.others t key ≠ none)
    (hget : env.getTurn.fault = none)
    (hgone : env.getTurn.others (env.putTurn.others t) key = none) :
    (Idempotent env key callback (World.start t)).1
      = (GoZero.zero, some (wrapPersistance errItemNotFound)) ∧
    errorsIs (wrapPersistance errItemNotFound) ErrPersistanceLayer = true ∧
    (Idempotent env key callback (World.start t)).2.calls
      = [Call.putItem key, Call.getItem key] := by
  rcases hp : env.putTurn.others t key with _ | old
  · exact absurd hp hconflict
  · simp [Idempotent, saveInProgress, putItem, get, getItem, World.start,
      errorsAsConditionFailed, errorsIs_wrapPersistance, hcfg, hbuild, hput, hp, hget, hgone]

/-- Another client deletes the record between the rejected put and the get. -/
theorem vanished_record_after_conflict_witness :
    (Idempotent
      { Env.calm String 1000 with
        getTurn := { others := fun table => Table.erase table "k", fault := none } }
      "k" (fun _ => ("ok", none))
      (World.start (Table.insert (Table.empty String)
        { PK := "k", TTL := 1300, Status := "IN_PROGRESS", Result := "" }))).2.calls
      = [Call.putItem "k", Call.getItem "k"] :=
  (vanished_record_after_conflict
    { Env.calm String 1000 with
      getTurn := { others := fun table => Table.erase table "k", fault := none } }
    "k" (fun _ => ("ok", none))
    (Table.insert (Table.empty String)
      { PK := "k", TTL := 1300, Status := "IN_PROGRESS", Result := "" })
    rfl rfl rfl (by decide) rfl (by decide)).2.2

/-- C10, counterexample.  Three situations at clock 1000, every store call
succeeding, in which the callback is invoked.  In the first the table holds for
`k` an expired `COMPLETED` record (TTL 0): the table at the moment of the
invocation holds no record for `k`.  In the second the table holds an unexpired
`COMPLETED` record with the zero result `""`: the table at the moment of the
invocation holds that `COMPLETED` record, not an `IN_PROGRESS` one written by
the call.  In the third, three callers meet the expired record in the
interleaving `[0, 0, 1, 1, 1, 2, 0, 2]`: callers 0 and 1 both read it, caller 1
deletes it, the create of caller 2 succeeds, the pending delete of caller 0
removes the claim of caller 2, and caller 2 invokes the callback on a table
without a record for `k`. -/
theorem claim_held_counterexample :
    (Call.callback ∈ (Idempotent (Env.calm String 1000) "k" (fun _ => ("ok", none))
        (World.start (Table.insert (Table.empty String)
          { PK := "k", TTL := 0, Status := "COMPLETED", Result := "old" }))).2.calls ∧
    ((Idempotent (Env.calm String 1000) "k" (fun _ => ("ok", none))
        (World.start (Table.insert (Table.empty String)
          { PK := "k", TTL := 0, Status := "COMPLETED", Result := "old" }))).2.atCallback.map
      (fun table => table "k")) = some none) ∧
    (Call.callback ∈ (Idempotent (Env.calm String 1000) "k" (fun _ => ("ok", none))
        (World.start (Table.insert (Table.empty String)
          { PK := "k", TTL := 1200, Status := "COMPLETED", Result := "" }))).2.calls ∧
    ((Idempotent (Env.calm String 1000) "k" (fun _ => ("ok", none))
        (World.start (Table.insert (Table.empty String)
          { PK := "k", TTL := 1200, Status := "COMPLETED", Result := "" }))).2.atCallback.map
      (fun table => table "k"))
      = some (some { PK := "k", TTL := 1200, Status := "COMPLETED", Result := "" })) ∧
    ((Fleet.run 3 (fun _ => Env.calm String 1000) "k" (fun _ => ("ok", none))
        [0, 0, 1, 1, 1, 2]
        (Fleet.start (Table.insert (Table.empty String)
          { PK := "k", TTL := 0, Status := "COMPLETED", Result := "old" }))).pcs 2 = Pc.ready ∧
    (Fleet.run 3 (fun _ => Env.calm String 1000) "k" (fun _ => ("ok", none))
        [0, 0, 1, 1, 1, 2]
        (Fleet.start (Table.insert (Table.empty String)
          { PK := "k", TTL := 0, Status := "COMPLETED", Result := "old" }))).world.table "k"
      = some { PK := "k", TTL := 1360, Status := "IN_PROGRESS", Result := "" } ∧
    (Fleet.run 3 (fun _ => Env.calm String 1000) "k" (fun _ => ("ok", none))
        [0, 0, 1, 1, 1, 2, 0, 2]
        (Fleet.start (Table.insert (Table.empty String)
          { PK := "k", TTL := 0, Status := "COMPLETED", Result := "old" }))).world.calls.getLast?
      = some Call.callback ∧
    ((Fleet.run 3 (fun _ => Env.calm String 1000) "k" (fun _ => ("ok", none))
        [0, 0, 1, 1, 1, 2, 0, 2]
        (Fleet.start (Table.insert (Table.empty String)
          { PK := "k", TTL := 0, Status := "COMPLETED", Result := "old" }))).world.atCallback.map
      (fun table => table "k")) = some none) := by
  decide

end Sequential

section Concurrent

variable {R : Type} [GoZero R] [DecidableEq R]

/-- The small-step form agrees with `Idempotent`: a caller alone, given five
steps, has returned what `Idempotent` returns and left the world `Idempotent`
leaves. -/
theorem runSolo_eq_Idempotent (env : Env R) (key : String) (callback : Callback R)
    (w : World R) :
    runSolo env key callback 5 (Pc.start, w) =
      (Pc.done (Idempotent env key callback w).1.1 (Idempotent env key callback w).1.2,
        (Idempotent env key callback w).2) := by
  rcases hc : env.loadConfig with _ | e0
  swap
  · simp [runSolo, step, Idempotent, hc]
  rcases hb : env.buildCondition with _ | e1
  swap
  · simp [runSolo, step, Idempotent, saveInProgress, hc, hb]
  rcases hcb : callback () with ⟨res, _ | e⟩
  · rcases hput : putItem env.putTurn
        { PK := key, TTL := env.now + 360, Status := "IN_PROGRESS", Result := GoZero.zero } w
      with ⟨_ | perr, w1⟩
    · rcases hupd : update env.updateTurn res key w1.invoke with ⟨_ | uerr, w3⟩ <;>
      simp [runSolo, step, Idempotent, saveInProgress, hc, hb, hput, hcb, hupd]
    · by_cases hcond : errorsAsConditionFailed perr = true
      swap
      · simp [runSolo, step, Idempotent, saveInProgress, hc, hb, hput, hcond]
      rcases hget : get env.getTurn key w1 with ⟨⟨got, _ | gerr⟩, w2⟩
      swap
      · simp [runSolo, step, Idempotent, saveInProgress, hc, hb, hput, hcond, hget]
      by_cases hs : got.Status = "IN_PROGRESS"
      · simp [runSolo, step, Idempotent, saveInProgress, inProgressError, hc, hb, hput, hcond,
          hget, hs]
      by_cases ht : got.TTL < env.now
      · rcases hupd : update env.updateTurn res key (delete env.reclaimTurn key w2).2.invoke
          with ⟨_ | uerr, w3⟩ <;>
        simp [runSolo, step, Idempotent, saveInProgress, hc, hb, hput, hcond, hget, hs, ht, hcb,
          hupd]
      by_cases hz : got.Result = GoZero.zero
      · rcases hupd : update env.updateTurn res key w2.invoke with ⟨_ | uerr, w3⟩ <;>
        simp [runSolo, step, Idempotent, saveInProgress, hc, hb, hput, hcond, hget, hs, ht, hz,
          hcb, hupd]
      · simp [runSolo, step, Idempotent, saveInProgress, hc, hb, hput, hcond, hget, hs, ht, hz]
  · rcases hput : putItem env.putTurn
        { PK := key, TTL := env.now + 360, Status := "IN_PROGRESS", Result := GoZero.zero } w
      with ⟨_ | perr, w1⟩
    · rcases hdel : delete env.cleanupTurn key w1.invoke with ⟨_ | derr, w3⟩ <;>
      simp [runSolo, step, Idempotent, saveInProgress, hc, hb, hput, hcb, hdel]
    · by_cases hcond : errorsAsConditionFailed perr = true
      swap
      · simp [runSolo, step, Idempotent, saveInProgress, hc, hb, hput, hcond]
      rcases hget : get env.getTurn key w1 with ⟨⟨got, _ | gerr⟩, w2⟩
      swap
      · simp [runSolo, step, Idempotent, saveInProgress, hc, hb, hput, hcond, hget]
      by_cases hs : got.Status = "IN_PROGRESS"
      · simp [runSolo, step, Idempotent, saveInProgress, inProgressError, hc, hb, hput, hcond,
          hget, hs]
      by_cases ht : got.TTL < env.now
      · rcases hdel : delete env.cleanupTurn key (delete env.reclaimTurn key w2).2.invoke
          with ⟨_ | derr, w3⟩ <;>
        simp [runSolo, step, Idempotent, saveInProgress, hc, hb, hput, hcond, hget, hs, ht, hcb,
          hdel]
      by_cases hz : got.Result = GoZero.zero
      · rcases hdel : delete env.cleanupTurn key w2.invoke with ⟨_ | derr, w3⟩ <;>
        simp [runSolo, step, Idempotent, saveInProgress, hc, hb, hput, hcond, hget, hs, ht, hz,
          hcb, hdel]
      · simp [runSolo, step, Idempotent, saveInProgress, hc, hb, hput, hcond, hget, hs, ht, hz]

/-- Appending one call adds one invocation exactly when the call is the callback. -/
theorem invocations_snoc (calls : List Call) (c : Call) :
    invocations (calls ++ [c]) = invocations calls + (if c = Call.callback then 1 else 0) := by
  simp [invocations, List.count_append, List.count_singleton]

/-- While the record is `IN_PROGRESS`, a step of a waiting caller leaves it waiting,
changes neither the table nor the number of invocations, and lowers its rank. -/
theorem step_waiting_inProgress (now : Int) (key : String) (op : Callback R) (w : World R)
    (x : Item R) (p : Pc R) (hx : w.table key = some x) (hs : x.Status = "IN_PROGRESS")
    (hp : p.waiting) :
    (step (Env.calm R now) key op p w).1.waiting ∧
    (step (Env.calm R now) key op p w).2.table = w.table ∧
    invocations (step (Env.calm R now) key op p w).2.calls = invocations w.calls ∧
    (step (Env.calm R now) key op p w).1.rank ≤ p.rank - 1 := by
  rcases hp with h | h | h <;> subst h <;>
  simp [step, putItem, get, getItem, Env.calm, Turn.calm, errorsAsConditionFailed, hx, hs,
    Pc.waiting, Pc.rank, invocations_snoc]

/-- Once the record is `COMPLETED` with a non-zero result and is not expired for the
caller, a step of a served caller leaves it served, changes neither the table nor
the number of invocations, and lowers its rank. -/
theorem step_served_completed (now : Int) (key : String) (op : Callback R) (w : World R)
    (x : Item R) (p : Pc R) (hx : w.table key = some x) (hs : x.Status = "COMPLETED")
    (hlive : ¬ x.TTL < now) (hnz : x.Result ≠ GoZero.zero) (hp : p.served x.Result) :
    (step (Env.calm R now) key op p w).1.served x.Result ∧
    (step (Env.calm R now) key op p w).2.table = w.table ∧
    invocations (step (Env.calm R now) key op p w).2.calls = invocations w.calls ∧
    (step (Env.calm R now) key op p w).1.rank ≤ p.rank - 1 := by
  rcases hp with (h | h | h) | h <;> subst h <;>
  simp [step, putItem, get, getItem, Env.calm, Turn.calm, errorsAsConditionFailed, hx, hs,
    hlive, hnz, Pc.waiting, Pc.served, Pc.rank, invocations_snoc]

/-- One step of any caller keeps the invariant. -/
theorem fleet_step_inv (n : Nat) (nows : Nat → Int) (key : String) (op : Callback R) (r : R)
    (hop : op () = (r, none)) (hnz : r ≠ GoZero.zero)
    (hclock : ∀ i j, i < n → j < n → nows i ≤ nows j + 360)
    (f : Fleet R) (i : Nat) (hinv : f.inv n nows key r) :
    (Fleet.step n (fun c => Env.calm R (nows c)) key op f i).inv n nows key r := by
  by_cases hi : i < n
  swap
  · simp [Fleet.step, hi, hinv]
  rcases hinv with ⟨ht, hc, hp⟩ | ⟨w, hw, ⟨ht, hc, hpw, hp⟩ | ⟨ht, hc, hpw, hp⟩ | ⟨ht, hc, hpw, hp⟩⟩
  · refine Or.inr ⟨i, hi, Or.inl ⟨?_, ?_, ?_, ?_⟩⟩
    · simp [Fleet.step, hi, step, hp i, putItem, Env.calm, Turn.calm, ht, Table.insert, Table.set,
        claimRecord]
    · simp [Fleet.step, hi, step, hp i, putItem, Env.calm, Turn.calm, ht, invocations_snoc, hc]
    · simp [Fleet.step, hi, step, hp i, putItem, Env.calm, Turn.calm, ht]
    · intro j hj
      simp [Fleet.step, hi, hj, hp j, Pc.waiting]
  · by_cases hiw : i = w
    · subst hiw
      refine Or.inr ⟨i, hi, Or.inr (Or.inl ⟨?_, ?_, ?_, ?_⟩)⟩
      · simp [Fleet.step, hi, step, hpw, hop, World.invoke, ht]
      · simp [Fleet.step, hi, step, hpw, hop, World.invoke, invocations_snoc, hc]
      · simp [Fleet.step, hi, step, hpw, hop]
      · intro j hj
        simp [Fleet.step, hi, hj, hp j hj]
    · have h := step_waiting_inProgress (nows i) key op f.world _ (f.pcs i) ht rfl (hp i hiw)
      refine Or.inr ⟨w, hw, Or.inl ⟨?_, ?_, ?_, ?_⟩⟩
      · simp [Fleet.step, hi, h.2.1, ht]
      · simp [Fleet.step, hi, h.2.2.1, hc]
      · simp [Fleet.step, hi, Ne.symm hiw, hpw]
      · intro j hj
        by_cases hji : j = i
        · subst hji; simp [Fleet.step, hi, h.1]
        · simp [Fleet.step, hi, hji, hp j hj]
  · by_cases hiw : i = w
    · subst hiw
      refine Or.inr ⟨i, hi, Or.inr (Or.inr ⟨?_, ?_, ?_, ?_⟩)⟩
      · simp [Fleet.step, hi, step, hpw, update, updateItem, Env.calm, Turn.calm, ht,
          Table.insert, Table.set, claimRecord, completedRecord]
      · simp [Fleet.step, hi, step, hpw, update, updateItem, Table.set, Env.calm, Turn.calm, ht,
          invocations_snoc, hc]
      · simp [Fleet.step, hi, step, hpw, update, updateItem, Table.set, Env.calm, Turn.calm, ht]
      · intro j hj
        simp [Fleet.step, hi, hj, Pc.served, hp j hj]
    · have h := step_waiting_inProgress (nows i) key op f.world _ (f.pcs i) ht rfl (hp i hiw)
      refine Or.inr ⟨w, hw, Or.inr (Or.inl ⟨?_, ?_, ?_, ?_⟩)⟩
      · simp [Fleet.step, hi, h.2.1, ht]
      · simp [Fleet.step, hi, h.2.2.1, hc]
      · simp [Fleet.step, hi, Ne.symm hiw, hpw]
      · intro j hj
        by_cases hji : j = i
        · subst hji; simp [Fleet.step, hi, h.1]
        · simp [Fleet.step, hi, hji, hp j hj]
  · by_cases hiw : i = w
    · subst hiw
      refine Or.inr ⟨i, hi, Or.inr (Or.inr ⟨?_, ?_, ?_, ?_⟩)⟩
      · simp [Fleet.step, hi, step, hpw, ht]
      · simp [Fleet.step, hi, step, hpw, hc]
      · simp [Fleet.step, hi, step, hpw]
      · intro j hj
        simp [Fleet.step, hi, hj, hp j hj]
    · have hlive : ¬ (completedRecord key (nows w) r).TTL < nows i := by
        have := hclock i w hi hw
        simp only [completedRecord]
        omega
      have h := step_served_completed (nows i) key op f.world _ (f.pcs i) ht rfl hlive hnz
        (hp i hiw)
      refine Or.inr ⟨w, hw, Or.inr (Or.inr ⟨?_, ?_, ?_, ?_⟩)⟩
      · simp [Fleet.step, hi, h.2.1, ht]
      · simp [Fleet.step, hi, h.2.2.1, hc]
      · simp [Fleet.step, hi, Ne.symm hiw, hpw]
      · intro j hj
        by_cases hji : j = i
        · subst hji
          simpa [Fleet.step, hi] using h.1
        · simp [Fleet.step, hi, hji, hp j hj]

/-- A caller that steps comes closer to its return. -/
theorem fleet_step_rank (n : Nat) (nows : Nat → Int) (key : String) (op : Callback R) (r : R)
    (hop : op () = (r, none)) (hnz : r ≠ GoZero.zero)
    (hclock : ∀ i j, i < n → j < n → nows i ≤ nows j + 360)
    (f : Fleet R) (i : Nat) (hi : i < n) (hinv : f.inv n nows key r) :
    ((Fleet.step n (fun c => Env.calm R (nows c)) key op f i).pcs i).rank
      ≤ (f.pcs i).rank - 1 := by
  rcases hinv with ⟨ht, _, hp⟩ | ⟨w, hw, ⟨ht, _, hpw, hp⟩ | ⟨ht, _, hpw, hp⟩ | ⟨ht, _, hpw, hp⟩⟩
  · simp [Fleet.step, hi, step, hp i, putItem, Env.calm, Turn.calm, ht, Pc.rank]
  · by_cases hiw : i = w
    · subst hiw
      simp [Fleet.step, hi, step, hpw, hop, Pc.rank]
    · have h := step_waiting_inProgress (nows i) key op f.world _ (f.pcs i) ht rfl (hp i hiw)
      simpa [Fleet.step, hi] using h.2.2.2
  · by_cases hiw : i = w
    · subst hiw
      simp [Fleet.step, hi, step, hpw, update, updateItem, Table.set, Env.calm, Turn.calm, ht, Pc.rank]
    · have h := step_waiting_inProgress (nows i) key op f.world _ (f.pcs i) ht rfl (hp i hiw)
      simpa [Fleet.step, hi] using h.2.2.2
  · by_cases hiw : i = w
    · subst hiw
      simp [Fleet.step, hi, step, hpw, Pc.rank]
    · have hlive : ¬ (completedRecord key (nows w) r).TTL < nows i := by
        have := hclock i w hi hw
        simp only [completedRecord]
        omega
      have h := step_served_completed (nows i) key op f.world _ (f.pcs i) ht rfl hlive hnz
        (hp i hiw)
      simpa [Fleet.step, hi] using h.2.2.2

/-- A step of one caller leaves the control state of every other caller alone. -/
theorem fleet_step_other (n : Nat) (envs : Nat → Env R) (key : String) (op : Callback R)
    (f : Fleet R) (i j : Nat) (hj : j ≠ i) :
    (Fleet.step n envs key op f i).pcs j = f.pcs j := by
  unfold Fleet.step
  split <;> simp [hj]

/-- Every schedule keeps the invariant, and a caller scheduled `c` times has
lowered its rank by `c`. -/
theorem fleet_run_inv (n : Nat) (nows : Nat → Int) (key : String) (op : Callback R) (r : R)
    (hop : op () = (r, none)) (hnz : r ≠ GoZero.zero)
    (hclock : ∀ i j, i < n → j < n → nows i ≤ nows j + 360) (sched : List Nat) :
    ∀ f : Fleet R, f.inv n nows key r →
      (Fleet.run n (fun c => Env.calm R (nows c)) key op sched f).inv n nows key r ∧
      ∀ j, j < n →
        ((Fleet.run n (fun c => Env.calm R (nows c)) key op sched f).pcs j).rank
          ≤ (f.pcs j).rank - sched.count j := by
  induction sched with
  | nil => intro f hinv; simp [Fleet.run, hinv]
  | cons i rest ih =>
    intro f hinv
    have hstep := fleet_step_inv n nows key op r hop hnz hclock f i hinv
    have hrest := ih _ hstep
    refine ⟨by simpa [Fleet.run] using hrest.1, ?_⟩
    intro j hj
    have hj2 := hrest.2 j hj
    simp only [Fleet.run, List.foldl_cons] at hj2 ⊢
    by_cases hji : j = i
    · subst hji
      have hr := fleet_step_rank n nows key op r hop hnz hclock f j hj hinv
      simp only [List.count_cons_self]
      omega
    · rw [fleet_step_other n _ key op f i j hji] at hj2
      have : List.count j (i :: rest) = List.count j rest := by
        simp [List.count_cons, Ne.symm hji]
      omega

/-- A control state of rank 0 is a returned call. -/
theorem rank_zero_done {Q : Type} (p : Pc Q) (h : p.rank = 0) :
    ∃ result err, p = Pc.done result err := by
  cases p <;> simp [Pc.rank] at h ⊢


/-- C1, counterexample.  Two callers on the empty table, every store call
succeeding, in the interleaving in which caller 0 takes its three steps (create,
callback, update) before caller 1 starts.  When the callback returns the zero
value `""` and both clocks read 1000, caller 1 takes four steps (rejected create,
get, callback, update): the callback is invoked twice.  When the callback
returns `"x"` and the clock of caller 1 reads 2000, more than 360 after the 1000
of caller 0, caller 1 takes five steps (rejected create, get, delete, callback,
update): the callback is invoked twice as well. -/
theorem exactly_once_counterexample :
    (invocations (Fleet.run 2 (fun _ => Env.calm String 1000) "k" (fun _ => ("", none))
      [0, 0, 0, 1, 1, 1, 1] (Fleet.start (Table.empty String))).world.calls = 2 ∧
    (Fleet.run 2 (fun _ => Env.calm String 1000) "k" (fun _ => ("", none))
      [0, 0, 0, 1, 1, 1, 1] (Fleet.start (Table.empty String))).pcs 0 = Pc.done "" none ∧
    (Fleet.run 2 (fun _ => Env.calm String 1000) "k" (fun _ => ("", none))
      [0, 0, 0, 1, 1, 1, 1] (Fleet.start (Table.empty String))).pcs 1 = Pc.done "" none) ∧
    (invocations (Fleet.run 2 (fun c => Env.calm String (if c = 0 then 1000 else 2000)) "k"
      (fun _ => ("x", none)) [0, 0, 0, 1, 1, 1, 1, 1]
      (Fleet.start (Table.empty String))).world.calls = 2 ∧
    (Fleet.run 2 (fun c => Env.calm String (if c = 0 then 1000 else 2000)) "k"
      (fun _ => ("x", none)) [0, 0, 0, 1, 1, 1, 1, 1]
      (Fleet.start (Table.empty String))).pcs 0 = Pc.done "x" none ∧
    (Fleet.run 2 (fun c => Env.calm String (if c = 0 then 1000 else 2000)) "k"
      (fun _ => ("x", none)) [0, 0, 0, 1, 1, 1, 1, 1]
      (Fleet.start (Table.empty String))).pcs 1 = Pc.done "x" none) := by
  decide

/-- C1 as amended.  The key has no record, `n ≥ 1` callers run `Idempotent` on it
with every store call succeeding, no clock reading exceeds another by more than
360, and the callback returns `(r, nil)` with `r` different from the zero value.
Then, for every interleaving of their store calls and callback invocations: the
callback is never invoked a second time; once every caller has taken three steps
every caller has returned; and when every caller has returned, the callback has
been invoked exactly once, one caller has `(r, nil)`, and each of the others has
either `(r, nil)` or the in-progress error. -/
theorem exactly_once_nonzero_result (n : Nat) (nows : Nat → Int) (key : String)
    (op : Callback R) (r : R) (t : Table R) (sched : List Nat) (hn : 1 ≤ n)
    (habsent : t key = none) (hop : op () = (r, none)) (hnz : r ≠ GoZero.zero)
    (hclock : ∀ i j, i < n → j < n → nows i ≤ nows j + 360) :
    invocations (Fleet.run n (fun c => Env.calm R (nows c)) key op sched
      (Fleet.start t)).world.calls ≤ 1 ∧
    ((∀ i, i < n → 3 ≤ sched.count i) →
      Fleet.allDone n (Fleet.run n (fun c => Env.calm R (nows c)) key op sched (Fleet.start t))) ∧
    (Fleet.allDone n (Fleet.run n (fun c => Env.calm R (nows c)) key op sched (Fleet.start t)) →
      invocations (Fleet.run n (fun c => Env.calm R (nows c)) key op sched
        (Fleet.start t)).world.calls = 1 ∧
      ∃ w, w < n ∧
        (Fleet.run n (fun c => Env.calm R (nows c)) key op sched (Fleet.start t)).pcs w
          = Pc.done r none ∧
        ∀ j, j < n → j ≠ w →
          (Fleet.run n (fun c => Env.calm R (nows c)) key op sched (Fleet.start t)).pcs j
            = Pc.done r none ∨
          (Fleet.run n (fun c => Env.calm R (nows c)) key op sched (Fleet.start t)).pcs j
            = Pc.done GoZero.zero (some inProgressError)) := by
  have hstart : (Fleet.start t).inv n nows key r :=
    Or.inl ⟨habsent, rfl, fun _ => rfl⟩
  have hrun := fleet_run_inv n nows key op r hop hnz hclock sched (Fleet.start t) hstart
  generalize Fleet.run n (fun c => Env.calm R (nows c)) key op sched (Fleet.start t) = g at hrun ⊢
  obtain ⟨hinv, hrank⟩ := hrun
  refine ⟨?_, ?_, ?_⟩
  · rcases hinv with ⟨_, hc, _⟩ | ⟨w, _, ⟨_, hc, _⟩ | ⟨_, hc, _⟩ | ⟨_, hc, _⟩⟩ <;> omega
  · intro hfair i hi
    have h1 := hrank i hi
    have h2 := hfair i hi
    have h3 : ((Fleet.start t).pcs i).rank = 3 := rfl
    apply rank_zero_done
    omega
  · intro hdone
    rcases hinv with ⟨_, _, hp⟩ | ⟨w, hw, ⟨_, _, hpw, _⟩ | ⟨_, _, hpw, _⟩ | ⟨_, hc, hpw, hp⟩⟩
    · obtain ⟨res, e, h⟩ := hdone 0 (by omega)
      rw [hp 0] at h
      cases h
    · obtain ⟨res, e, h⟩ := hdone w hw
      rw [hpw] at h
      cases h
    · obtain ⟨res, e, h⟩ := hdone w hw
      rw [hpw] at h
      cases h
    · refine ⟨hc, w, hw, hpw, ?_⟩
      intro j hj hjw
      obtain ⟨res, e, h⟩ := hdone j hj
      rcases hp j hjw with (h0 | h0 | h0) | h0
      · rw [h0] at h; cases h
      · rw [h0] at h; cases h
      · exact Or.inr h0
      · exact Or.inl h0

/-- Three callers at clock 1000 stepping in turn: the callback runs once. -/
theorem exactly_once_nonzero_result_witness :
    (1 ≤ 3) ∧ Table.empty String "k" = none ∧ ("x" : String) ≠ GoZero.zero ∧
    (∀ i, i < 3 → 3 ≤ List.count i [0, 1, 2, 0, 1, 2, 0, 1, 2]) ∧
    invocations (Fleet.run 3 (fun c => Env.calm String ((fun _ => 1000) c)) "k"
      (fun _ => ("x", none)) [0, 1, 2, 0, 1, 2, 0, 1, 2]
      (Fleet.start (Table.empty String))).world.calls = 1 :=
  ⟨by decide, rfl, by decide, by decide,
    ((exactly_once_nonzero_result 3 (fun _ => 1000) "k" (fun _ => ("x", none)) "x"
      (Table.empty String) [0, 1, 2, 0, 1, 2, 0, 1, 2] (by decide) rfl rfl (by decide)
      (fun _ _ _ _ => by simp)).2.2
      ((exactly_once_nonzero_result 3 (fun _ => 1000) "k" (fun _ => ("x", none)) "x"
        (Table.empty String) [0, 1, 2, 0, 1, 2, 0, 1, 2] (by decide) rfl rfl (by decide)
        (fun _ _ _ _ => by simp)).2.1 (by decide))).1⟩

/-- A step only appends to the log. -/
theorem step_log (env : Env R) (key : String) (op : Callback R) (pc : Pc R) (w : World R) :
    ∃ extra, (step env key op pc w).2.calls = w.calls ++ extra := by
  cases pc with
  | start =>
    rcases hc : env.loadConfig with _ | e0
    · rcases hb : env.buildCondition with _ | e1
      · rcases hf : env.putTurn.fault with _ | e2
        · rcases hp : env.putTurn.others w.table key with _ | cur
          · exact ⟨[Call.putItem key], by simp [step, putItem, hc, hb, hf, hp]⟩
          · exact ⟨[Call.putItem key], by
              simp [step, putItem, errorsAsConditionFailed, hc, hb, hf, hp]⟩
        · exact ⟨[Call.putItem key], by
            simp [step, putItem, errorsAsConditionFailed, hc, hb, hf]⟩
      · exact ⟨[], by simp [step, hc, hb]⟩
    · exact ⟨[], by simp [step, hc]⟩
  | conflict =>
    refine ⟨[Call.getItem key], ?_⟩
    rcases hg : env.getTurn.fault with _ | e3
    · rcases hr : env.getTurn.others w.table key with _ | got
      · simp [step, get, getItem, hg, hr]
      · by_cases hs : got.Status = "IN_PROGRESS"
        · simp [step, get, getItem, hg, hr, hs]
        · by_cases ht : got.TTL < env.now
          · simp [step, get, getItem, hg, hr, hs, ht]
          · by_cases hz : got.Result = GoZero.zero <;>
            simp [step, get, getItem, hg, hr, hs, ht, hz]
    · simp [step, get, getItem, hg]
  | reclaim =>
    refine ⟨[Call.deleteItem key], ?_⟩
    rcases hd : env.reclaimTurn.fault with _ | e <;> simp [step, delete, deleteItem, hd]
  | ready =>
    refine ⟨[Call.callback], ?_⟩
    rcases hcb : op () with ⟨res, _ | e⟩ <;> simp [step, World.invoke, hcb]
  | cleanup err =>
    refine ⟨[Call.deleteItem key], ?_⟩
    rcases hd : env.cleanupTurn.fault with _ | e <;> simp [step, delete, deleteItem, hd]
  | finalize result =>
    refine ⟨[Call.updateItem key], ?_⟩
    rcases hu : env.updateTurn.fault with _ | e
    · rcases hk : env.updateTurn.others w.table key with _ | cur <;>
      simp [step, update, updateItem, hu, hk]
    · simp [step, update, updateItem, hu]
  | done result err => exact ⟨[], by simp [step]⟩

/-- While the key has a record and nobody but the callers writes, a step that
logs neither a delete nor an update for the key leaves that record in place. -/
theorem step_keeps_record (env : Env R) (key : String) (op : Callback R) (pc : Pc R)
    (w : World R) (x : Item R) (extra : List Call) (hq : env.alone)
    (hx : w.table key = some x)
    (hlog : (step env key op pc w).2.calls = w.calls ++ extra)
    (hkeeps : ∀ c, c ∈ extra → c.keeps key) :
    (step env key op pc w).2.table key = some x := by
  obtain ⟨hq1, hq2, hq3, hq4, hq5⟩ := hq
  cases pc with
  | start =>
    rcases hc : env.loadConfig with _ | e0
    · rcases hb : env.buildCondition with _ | e1
      · rcases hf : env.putTurn.fault with _ | e2
        · simp [step, putItem, errorsAsConditionFailed, hc, hb, hf, hq1, hx]
        · simp [step, putItem, errorsAsConditionFailed, hc, hb, hf, hq1, hx]
      · simp [step, hc, hb, hx]
    · simp [step, hc, hx]
  | conflict =>
    rcases hg : env.getTurn.fault with _ | e3
    · by_cases hs : x.Status = "IN_PROGRESS"
      · simp [step, get, getItem, hg, hq2, hx, hs]
      · by_cases ht : x.TTL < env.now
        · simp [step, get, getItem, hg, hq2, hx, hs, ht]
        · by_cases hz : x.Result = GoZero.zero <;>
          simp [step, get, getItem, hg, hq2, hx, hs, ht, hz]
    · simp [step, get, getItem, hg, hq2, hx]
  | reclaim =>
    have hmem : Call.deleteItem key ∈ extra := by
      rcases hd : env.reclaimTurn.fault with _ | e <;>
      simp [step, delete, deleteItem, hd] at hlog <;> simp [← hlog]
    exact absurd rfl (hkeeps _ hmem).1
  | ready =>
    rcases hcb : op () with ⟨res, _ | e⟩ <;> simp [step, World.invoke, hcb, hx]
  | cleanup err =>
    have hmem : Call.deleteItem key ∈ extra := by
      rcases hd : env.cleanupTurn.fault with _ | e <;>
      simp [step, delete, deleteItem, hd] at hlog <;> simp [← hlog]
    exact absurd rfl (hkeeps _ hmem).1
  | finalize result =>
    have hmem : Call.updateItem key ∈ extra := by
      rcases hu : env.updateTurn.fault with _ | e
      · rcases hk : env.updateTurn.others w.table key with _ | cur <;>
        simp [step, update, updateItem, hu, hk] at hlog <;> simp [← hlog]
      · simp [step, update, updateItem, hu] at hlog
        simp [← hlog]
    exact absurd rfl (hkeeps _ hmem).2
  | done result err => simp [step, hx]

/-- A schedule only appends to the common log. -/
theorem fleet_run_log (n : Nat) (envs : Nat → Env R) (key : String) (op : Callback R)
    (sched : List Nat) :
    ∀ g : Fleet R, ∃ extra,
      (Fleet.run n envs key op sched g).world.calls = g.world.calls ++ extra := by
  induction sched with
  | nil => intro g; exact ⟨[], by simp [Fleet.run]⟩
  | cons j rest ih =>
    intro g
    obtain ⟨e2, h2⟩ := ih (Fleet.step n envs key op g j)
    have h1 : ∃ e1, (Fleet.step n envs key op g j).world.calls = g.world.calls ++ e1 := by
      by_cases hj : j < n
      · obtain ⟨e1, h⟩ := step_log (envs j) key op (g.pcs j) g.world
        exact ⟨e1, by simpa [Fleet.step, hj] using h⟩
      · exact ⟨[], by simp [Fleet.step, hj]⟩
    obtain ⟨e1, h1⟩ := h1
    refine ⟨e1 ++ e2, ?_⟩
    simp only [Fleet.run, List.foldl_cons] at h2 ⊢
    rw [h2, h1, List.append_assoc]

/-- While the key has a record and nobody but the callers writes, a schedule that
logs neither a delete nor an update for the key leaves that record in place. -/
theorem fleet_run_keeps_record (n : Nat) (envs : Nat → Env R) (key : String)
    (op : Callback R) (x : Item R) (hq : ∀ j, (envs j).alone) (sched : List Nat) :
    ∀ (g : Fleet R) (extra : List Call), g.world.table key = some x →
      (Fleet.run n envs key op sched g).world.calls = g.world.calls ++ extra →
      (∀ c, c ∈ extra → c.keeps key) →
      (Fleet.run n envs key op sched g).world.table key = some x := by
  induction sched with
  | nil => intro g extra hx _ _; simpa [Fleet.run] using hx
  | cons j rest ih =>
    intro g extra hx hlog hkeeps
    obtain ⟨e2, h2⟩ := fleet_run_log n envs key op rest (Fleet.step n envs key op g j)
    simp only [Fleet.run, List.foldl_cons] at hlog h2 ⊢
    by_cases hj : j < n
    · obtain ⟨e1, h1⟩ := step_log (envs j) key op (g.pcs j) g.world
      have h1f : (Fleet.step n envs key op g j).world.calls = g.world.calls ++ e1 := by
        simpa [Fleet.step, hj] using h1
      have hsplit : extra = e1 ++ e2 := by
        rw [h2, h1f, List.append_assoc] at hlog
        exact (List.append_cancel_left hlog).symm
      have hx1 : (Fleet.step n envs key op g j).world.table key = some x := by
        have := step_keeps_record (envs j) key op (g.pcs j) g.world x e1 (hq j) hx h1
          (fun c hc => hkeeps c (by simp [hsplit, hc]))
        simpa [Fleet.step, hj] using this
      exact ih _ e2 hx1 h2 (fun c hc => hkeeps c (by simp [hsplit, hc]))
    · have hsame : Fleet.step n envs key op g j = g := by simp [Fleet.step, hj]
      rw [hsame] at hlog ⊢
      exact ih g extra hx hlog hkeeps

/-- A schedule leaves alone the control state of a caller it never names. -/
theorem fleet_run_other (n : Nat) (envs : Nat → Env R) (key : String) (op : Callback R)
    (i : Nat) (sched : List Nat) :
    ∀ g : Fleet R, i ∉ sched → (Fleet.run n envs key op sched g).pcs i = g.pcs i := by
  induction sched with
  | nil => intro g _; simp [Fleet.run]
  | cons j rest ih =>
    intro g hi
    have hij : i ≠ j := fun h => hi (by simp [h])
    have hrest : i ∉ rest := fun h => hi (by simp [h])
    have := ih (Fleet.step n envs key op g j) hrest
    simp only [Fleet.run, List.foldl_cons] at this ⊢
    rw [this, fleet_step_other n envs key op g j i hij]

/-- C10 as amended.  Any number of callers of `Idempotent` on one key are the
only writers of the table; clock values, store failures and the states of the
other callers are arbitrary.  Caller `i` enters while the table holds no record
for the key, its configuration loads and its conditional create is served
without failure: the create succeeds and writes the record `IN_PROGRESS` with
TTL `now + 360`.  The other callers then step in any order, and neither a delete
nor an update for the key is served among their steps.  Then the next step of
caller `i` invokes the callback, and the table at the moment of the invocation
holds for the key the record written by that create. -/
theorem claim_held_after_create (n : Nat) (envs : Nat → Env R) (key : String)
    (op : Callback R) (f : Fleet R) (i : Nat) (between : List Nat)
    (hi : i < n) (halone : ∀ j, (envs j).alone) (hstart : f.pcs i = Pc.start)
    (hcfg : (envs i).loadConfig = none) (hbuild : (envs i).buildCondition = none)
    (hput : (envs i).putTurn.fault = none) (habsent : f.world.table key = none)
    (hself : i ∉ between)
    (hkeeps : ∀ c, c ∈ ((Fleet.run n envs key op between
        (Fleet.step n envs key op f i)).world.calls.drop
          (Fleet.step n envs key op f i).world.calls.length) → c.keeps key) :
    (Fleet.step n envs key op f i).pcs i = Pc.ready ∧
    (Fleet.step n envs key op f i).world.table key
      = some { PK := key, TTL := (envs i).now + 360, Status := "IN_PROGRESS",
               Result := GoZero.zero } ∧
    (Fleet.step n envs key op
        (Fleet.run n envs key op between (Fleet.step n envs key op f i)) i).world.calls
      = (Fleet.run n envs key op between (Fleet.step n envs key op f i)).world.calls
          ++ [Call.callback] ∧
    ∃ table,
      (Fleet.step n envs key op
        (Fleet.run n envs key op between (Fleet.step n envs key op f i)) i).world.atCallback
        = some table ∧
      table key = some { PK := key, TTL := (envs i).now + 360, Status := "IN_PROGRESS",
                         Result := GoZero.zero } := by
  have hp1 : (envs i).putTurn.others = id := (halone i).1
  have hpc : (Fleet.step n envs key op f i).pcs i = Pc.ready := by
    simp [Fleet.step, hi, step, hstart, putItem, hcfg, hbuild, hput, hp1, habsent]
  have htab : (Fleet.step n envs key op f i).world.table key
      = some { PK := key, TTL := (envs i).now + 360, Status := "IN_PROGRESS",
               Result := GoZero.zero } := by
    simp [Fleet.step, hi, step, hstart, putItem, hcfg, hbuild, hput, hp1, habsent,
      Table.insert, Table.set]
  obtain ⟨extra, hlog⟩ := fleet_run_log n envs key op between (Fleet.step n envs key op f i)
  have hdrop : ∀ c, c ∈ extra → c.keeps key := by
    intro c hc
    apply hkeeps
    rw [hlog, List.drop_left]
    exact hc
  have hheld := fleet_run_keeps_record n envs key op _ halone between
    (Fleet.step n envs key op f i) extra htab hlog hdrop
  have hready := fleet_run_other n envs key op i between (Fleet.step n envs key op f i) hself
  rw [hpc] at hready
  generalize Fleet.run n envs key op between (Fleet.step n envs key op f i) = g at hheld hready ⊢
  refine ⟨hpc, htab, ?_, ?_⟩
  · rcases hcb : op () with ⟨res, _ | e⟩ <;>
    simp [Fleet.step, hi, step, hready, World.invoke, hcb]
  · rcases hcb : op () with ⟨res, _ | e⟩ <;>
    simp [Fleet.step, hi, step, hready, World.invoke, hcb, hheld]

/-- Two callers at clock 1000 on the empty table: caller 0 creates its claim,
caller 1 is rejected and reads the claim, and caller 0 then invokes the callback
under its claim, which expires at 1360. -/
theorem claim_held_after_create_witness :
    (0 < 2) ∧ (∀ j : Nat, ((fun _ => Env.calm String 1000) j).alone) ∧
    Table.empty String "k" = none ∧ 0 ∉ [1, 1] ∧
    (∀ c, c ∈ ((Fleet.run 2 (fun _ => Env.calm String 1000) "k" (fun _ => ("ok", none)) [1, 1]
        (Fleet.step 2 (fun _ => Env.calm String 1000) "k" (fun _ => ("ok", none))
          (Fleet.start (Table.empty String)) 0)).world.calls.drop
        (Fleet.step 2 (fun _ => Env.calm String 1000) "k" (fun _ => ("ok", none))
          (Fleet.start (Table.empty String)) 0).world.calls.length) → c.keeps "k") ∧
    (Fleet.step 2 (fun _ => Env.calm String 1000) "k" (fun _ => ("ok", none))
        (Fleet.run 2 (fun _ => Env.calm String 1000) "k" (fun _ => ("ok", none)) [1, 1]
          (Fleet.step 2 (fun _ => Env.calm String 1000) "k" (fun _ => ("ok", none))
            (Fleet.start (Table.empty String)) 0)) 0).world.calls
      = (Fleet.run 2 (fun _ => Env.calm String 1000) "k" (fun _ => ("ok", none)) [1, 1]
          (Fleet.step 2 (fun _ => Env.calm String 1000) "k" (fun _ => ("ok", none))
            (Fleet.start (Table.empty String)) 0)).world.calls ++ [Call.callback] :=
  ⟨by decide, fun _ => ⟨rfl, rfl, rfl, rfl, rfl⟩, rfl, by decide,
    by simp [Fleet.run, Fleet.step, Fleet.start, World.start, step, putItem, get, getItem,
      Env.calm, Turn.calm, Table.empty, Table.insert, Table.set, errorsAsConditionFailed,
      Call.keeps],
    (claim_held_after_create 2 (fun _ => Env.calm String 1000) "k" (fun _ => ("ok", none))
      (Fleet.start (Table.empty String)) 0 [1, 1] (by decide) (fun _ => ⟨rfl, rfl, rfl, rfl, rfl⟩)
      rfl rfl rfl rfl rfl (by decide)
      (by simp [Fleet.run, Fleet.step, Fleet.start, World.start, step, putItem, get, getItem,
        Env.calm, Turn.calm, Table.empty, Table.insert, Table.set, errorsAsConditionFailed,
        Call.keeps])).2.2.1⟩

end Concurrent

end Idempotency
